import Mathlib

/-
Formal model of the flight-tracker dashboard API.

This development embeds the two Azure Functions HTTP handlers of the
repository, `flights-create` (src/packages/dashboard/api/flights-create/index.js)
and `flights-list` (src/packages/dashboard/api/flights-list/index.js), as pure
Lean functions over an explicit model of the blob container, and proves or
refutes the testable properties stated for the event writer / reader pair.

Modelling choices, and where each piece of the source lands:
- The request body is arbitrary JSON (`Json` below); the create handler reads
  `flight.flightId` and `flight.status` by JavaScript truthiness and serializes
  the whole body with `JSON.stringify(flight, null, 2)` (`serJson` below, the
  ECMA-262 serialization algorithm with a two-space gap; JSON numbers are
  modelled as integers, which covers every record the repository handles).
- The blob container is a list of named blobs (`Store`).  `blockBlobClient.upload`
  is a whole-object write that replaces any existing blob of the same name
  (`Store.upload`); the blob service stamps `lastModified`, modelled by the
  `now` argument threaded into the create handler.
- `containerClient.listBlobsFlat()` is the external store's enumeration; Azure
  Blob Storage returns blobs in lexicographic order of blob name, modelled by
  an insertion sort under `strLeb` (byte-wise lexicographic comparison).
- Environment configuration (AZURE_STORAGE_ACCOUNT / KEY / CONTAINER) is the
  `Config` record; JavaScript `!x` on an env var is `envTruthy`.
- Responses keep the HTTP status and a structured body mirroring exactly the
  JSON the handlers stringify (`RespBody`); headers are the constant
  `Content-Type: application/json` in both handlers and are omitted.
- Store outages (client construction or network throw) are external
  collaborators and outside the embedding; the handlers' catch-all 500 branch
  is reachable in the model only through the JavaScript `TypeError` raised by
  reading a property of a `null` body, which is modelled explicitly.
-/

/-- JSON value, the model of a JavaScript object travelling through the
handlers.  Numbers are modelled as integers (see header note). -/
inductive Json where
  | null
  | bool (b : Bool)
  | num (n : Int)
  | str (s : String)
  | arr (elems : List Json)
  | obj (fields : List (String × Json))
deriving Repr

/-- Lookup of an object member by key, first occurrence wins (JavaScript
object keys are unique). -/
def lookupField : List (String × Json) → String → Option Json
  | [], _ => none
  | (k, v) :: fs, key => if k = key then some v else lookupField fs key

/-- Property access `j.key`: `undefined` (here `none`) unless `j` is an object
with that key. -/
def Json.getField : Json → String → Option Json
  | .obj fs, key => lookupField fs key
  | _, _ => none

/-- JavaScript truthiness of a value: `null`, `false`, `0` and `""` are falsy,
everything else (objects, arrays, other numbers and strings) is truthy. -/
def jsTruthyV : Json → Bool
  | .null => false
  | .bool b => b
  | .num n => !(n = 0)
  | .str s => !(s = "")
  | .arr _ => true
  | .obj _ => true

/-- JavaScript truthiness of a possibly-missing property (`undefined` is
falsy). -/
def jsTruthy : Option Json → Bool
  | none => false
  | some v => jsTruthyV v

/-- One character of JSON string escaping, as in ECMA-262 QuoteJSONString
(sufficient for the character set the repository's records use). -/
def escapeChar (c : Char) : String :=
  if c = '"' then "\\\""
  else if c = '\\' then "\\\\"
  else if c = '\n' then "\\n"
  else if c = '\t' then "\\t"
  else if c = '\r' then "\\r"
  else String.singleton c

/-- JSON string quoting. -/
def jsonQuote (s : String) : String :=
  "\"" ++ String.join (s.toList.map escapeChar) ++ "\""

mutual
/-- `JSON.stringify(v, null, 2)` when called as `serJson "  " "" v`: the
ECMA-262 serialization with gap `gap` at current indentation `ind`.  With a
non-empty gap, non-empty objects and arrays are printed one member per line,
indented, with the closing bracket on its own line. -/
def serJson (gap ind : String) : Json → String
  | .null => "null"
  | .bool true => "true"
  | .bool false => "false"
  | .num n => toString n
  | .str s => jsonQuote s
  | .arr [] => "[]"
  | .arr (x :: xs) =>
      "[\n" ++ (ind ++ gap) ++
        String.intercalate (",\n" ++ (ind ++ gap)) (serElems gap (ind ++ gap) (x :: xs)) ++
        "\n" ++ ind ++ "]"
  | .obj [] => "\x7b\x7d"
  | .obj (f :: fs) =>
      "\x7b\n" ++ (ind ++ gap) ++
        String.intercalate (",\n" ++ (ind ++ gap)) (serFields gap (ind ++ gap) (f :: fs)) ++
        "\n" ++ ind ++ "\x7d"

/-- Serialization of the elements of a JSON array. -/
def serElems (gap ind : String) : List Json → List String
  | [] => []
  | x :: xs => serJson gap ind x :: serElems gap ind xs

/-- Serialization of the members of a JSON object. -/
def serFields (gap ind : String) : List (String × Json) → List String
  | [] => []
  | (k, v) :: fs => (jsonQuote k ++ ": " ++ serJson gap ind v) :: serFields gap ind fs
end

mutual
/-- JavaScript string conversion of a value, as used by the template literal
that builds the blob name. -/
def Json.toJSString : Json → String
  | .null => "null"
  | .bool true => "true"
  | .bool false => "false"
  | .num n => toString n
  | .str s => s
  | .arr xs => String.intercalate "," (toJSStrings xs)
  | .obj _ => "[object Object]"

/-- String conversion of the elements of an array (Array.prototype.toString
joins with commas). -/
def toJSStrings : List Json → List String
  | [] => []
  | x :: xs => Json.toJSString x :: toJSStrings xs
end

/-- Byte-value comparison on characters. -/
def charLeb (c d : Char) : Bool := Nat.ble c.toNat d.toNat

/-- Character equality through code points. -/
def charEqb (c d : Char) : Bool := Nat.beq c.toNat d.toNat

/-- Lexicographic comparison of character lists. -/
def listLexLeb : List Char → List Char → Bool
  | [], _ => true
  | _ :: _, [] => false
  | c :: cs, d :: ds =>
      if charEqb c d then listLexLeb cs ds
      else charLeb c d

/-- Lexicographic order on strings, the order in which Azure Blob Storage
enumerates blob names. -/
def strLeb (a b : String) : Bool := listLexLeb a.data b.data

/-- Boolean character-list prefix test. -/
def listPrefixb : List Char → List Char → Bool
  | [], _ => true
  | _ :: _, [] => false
  | c :: cs, d :: ds => charEqb c d && listPrefixb cs ds

/-- Boolean string prefix test (used to state facts about blob-name layout). -/
def strStartsWithb (s p : String) : Bool := listPrefixb p.data s.data

/-- Boolean string suffix test. -/
def strEndsWithb (s p : String) : Bool := listPrefixb p.data.reverse s.data.reverse

/-- UTF-8 byte length of a character. -/
def charUtf8Len (c : Char) : Nat :=
  if c.toNat < 128 then 1
  else if c.toNat < 2048 then 2
  else if c.toNat < 65536 then 3
  else 4

/-- UTF-8 byte length of a string: the `contentLength` the blob service
reports for a blob holding the string. -/
def strByteLen (s : String) : Nat := (s.data.map charUtf8Len).sum

/-- Environment configuration of the handlers: AZURE_STORAGE_ACCOUNT,
AZURE_STORAGE_KEY, AZURE_STORAGE_CONTAINER (each possibly unset). -/
structure Config where
  accountName : Option String
  accountKey : Option String
  container : Option String

/-- JavaScript truthiness of an environment variable (`undefined` and `""`
are falsy): the guard `!accountName` in the handlers. -/
def envTruthy : Option String → Bool
  | none => false
  | some s => !(s = "")

/-- Incoming HTTP request.  The `scope`, `caller`, `dateFrom` and `dateTo`
fields model query parameters an RLS-aware caller might send; neither source
handler ever reads them. -/
structure Request where
  method : String
  body : Json
  scope : Option String
  caller : Option String
  dateFrom : Option String
  dateTo : Option String

/-- One blob of the container: name, full content, and the last-modified
stamp the blob service records at upload time. -/
structure Blob where
  name : String
  content : String
  lastModified : Nat
deriving Repr, DecidableEq

/-- The blob container state. -/
abbrev Store := List Blob

/-- Whole-object write: `blockBlobClient.upload` replaces the blob of that
name if present, otherwise adds it. -/
def Store.upload : Store → String → String → Nat → Store
  | [], n, c, t => [⟨n, c, t⟩]
  | b :: bs, n, c, t =>
      if b.name = n then ⟨n, c, t⟩ :: bs else b :: Store.upload bs n c t

/-- First blob of a given name, if any. -/
def Store.find? : Store → String → Option Blob
  | [], _ => none
  | b :: bs, n => if b.name = n then some b else Store.find? bs n

/-- Enumeration order of `listBlobsFlat`: ascending lexicographic blob name. -/
def blobLe (a b : Blob) : Prop := strLeb a.name b.name = true

instance : DecidableRel blobLe := fun a b =>
  (inferInstance : Decidable (strLeb a.name b.name = true))

/-- The container as `listBlobsFlat` enumerates it. -/
def sortByName (s : Store) : Store := List.insertionSort blobLe s

/-- Blob metadata as the list handler returns it: `name`,
`properties.contentLength`, `properties.lastModified`. -/
structure FlightMeta where
  name : String
  size : Nat
  lastModified : Nat
deriving Repr, DecidableEq

/-- Structured response body, mirroring the JSON each handler stringifies. -/
inductive RespBody where
  | err (msg : String)
  | created (success : Bool) (blobName : String)
  | listing (flights : List FlightMeta) (count : Nat)
deriving Repr, DecidableEq

/-- HTTP response: status code and body. -/
structure Response where
  status : Nat
  body : RespBody
deriving Repr, DecidableEq

/-- Names of the listed flights of a response (empty for non-listing
bodies); convenience accessor for stating properties. -/
def Response.listedNames (r : Response) : List String :=
  match r.body with
  | .listing fs _ => fs.map FlightMeta.name
  | _ => []

/-- The `flights-create` handler
(src/packages/dashboard/api/flights-create/index.js): method guard,
configuration guard, required-field validation, then a whole-object upload of
`JSON.stringify(flight, null, 2)` under the blob name
`` `${flight.flightId}.json` ``.  `now` is the store's clock for the
last-modified stamp. -/
def flightsCreate (cfg : Config) (now : Nat) (store : Store) (req : Request) :
    Response × Store :=
  if !(req.method = "POST") then
    (⟨405, .err "Method not allowed"⟩, store)
  else if !(envTruthy cfg.accountName && envTruthy cfg.accountKey) then
    (⟨500, .err "Storage not configured"⟩, store)
  else
    match req.body with
    | Json.null =>
        -- reading `flight.flightId` of a null/undefined body throws a
        -- TypeError, which the catch-all turns into a 500
        (⟨500, .err "Cannot read properties of null"⟩, store)
    | flight =>
        match flight.getField "flightId", flight.getField "status" with
        | some fid, some st =>
            if !(jsTruthyV fid && jsTruthyV st) then
              (⟨400, .err "Missing required fields"⟩, store)
            else
              let blobName := fid.toJSString ++ ".json"
              let content := serJson "  " "" flight
              (⟨200, .created true blobName⟩, store.upload blobName content now)
        | _, _ =>
            (⟨400, .err "Missing required fields"⟩, store)

/-- The `flights-list` handler
(src/packages/dashboard/api/flights-list/index.js): configuration guard, then
one metadata entry per blob of the container in enumeration order.  The
request is never consulted (the source reads nothing from `req`). -/
def flightsList (cfg : Config) (store : Store) (_req : Request) :
    Response × Store :=
  if !(envTruthy cfg.accountName) then
    (⟨500, .err "Storage account not configured"⟩, store)
  else
    let flights := (sortByName store).map
      (fun b => FlightMeta.mk b.name (strByteLen b.content) b.lastModified)
    (⟨200, .listing flights flights.length⟩, store)

/-- Ascending lexicographic order on blob names, the enumeration order seen
through `Blob.name`. -/
def nameLe (a b : String) : Prop := strLeb a b = true

instance : DecidableRel nameLe := fun a b =>
  (inferInstance : Decidable (strLeb a b = true))

/-- Boolean string equality. -/
def strEqb (a b : String) : Bool := decide (a = b)

/-- Modelled from the spec: the reader's ordering requirement, which is not
implemented by any code under src/ - "results are sorted by createdAt
descending before the cap is applied; ties broken by id ascending".  The
argument is the (createdAt, id) pair of each returned record, in returned
order. -/
def specPairOk (x y : String × String) : Bool :=
  (strLeb y.1 x.1 && !(strEqb x.1 y.1)) || (strEqb x.1 y.1 && strLeb x.2 y.2)

/-- Modelled from the spec: a returned sequence of (createdAt, id) pairs is
ordered as the spec requires when each adjacent pair satisfies `specPairOk`. -/
def specOrderedByCreatedAtDesc : List (String × String) → Bool
  | [] => true
  | [_] => true
  | x :: y :: rest => specPairOk x y && specOrderedByCreatedAtDesc (y :: rest)

/-- A configuration with both the storage account and the key set, as on a
deployed Static Web App using shared-key authentication. -/
def cfgOk : Config := ⟨some "acct", some "key", none⟩

/-- A flight record of the shape the dashboard submits: schema version,
identifier, status, creation time and pilot identity. -/
def mkFlight (fid st created owner : String) : Json :=
  Json.obj [("schemaVersion", Json.str "1.0.0"), ("flightId", Json.str fid),
            ("status", Json.str st), ("createdAt", Json.str created),
            ("pilot", Json.obj [("githubLogin", Json.str owner)])]

/-- A POST request carrying a record to append. -/
def postReq (b : Json) : Request := ⟨"POST", b, none, none, none, none⟩

/-- A read request carrying the query parameters an RLS-aware caller would
send (scope, caller identity, date range). -/
def queryReq (scope caller dFrom dTo : Option String) : Request :=
  ⟨"GET", Json.null, scope, caller, dFrom, dTo⟩

/-- The spec's concrete scenario record e1, owned by alice. -/
def bodyE1 : Json := mkFlight "e1" "successful" "2024-11-12T10:00:00Z" "alice"

/-- The spec's concrete scenario record e2, owned by bob. -/
def bodyE2 : Json := mkFlight "e2" "failure" "2024-11-12T11:00:00Z" "bob"

/-- A record whose blob name sorts first but whose createdAt is older. -/
def bodyA : Json := mkFlight "a" "successful" "2024-01-01T00:00:00Z" "alice"

/-- A record whose blob name sorts second but whose createdAt is newer. -/
def bodyB : Json := mkFlight "b" "successful" "2025-01-01T00:00:00Z" "alice"

/-
General lemmas about the ordering, the store, and the serializer, shared by
the claim theorems below.
-/

theorem listLexLeb_total : ∀ xs ys : List Char,
    listLexLeb xs ys = true ∨ listLexLeb ys xs = true := by
  intro xs
  induction xs with
  | nil => intro ys; left; rfl
  | cons c cs ih =>
    intro ys
    cases ys with
    | nil => right; rfl
    | cons d ds =>
      by_cases h : charEqb c d = true
      · have h2 : charEqb d c = true := by
          simp [charEqb] at h ⊢; omega
        simp only [listLexLeb, h, h2, if_true]
        exact ih ds
      · have h2 : ¬ charEqb d c = true := by
          simp [charEqb] at h ⊢; omega
        simp only [listLexLeb, h, h2, if_false]
        simp [charLeb, charEqb] at h ⊢
        omega

theorem listLexLeb_trans : ∀ xs ys zs : List Char,
    listLexLeb xs ys = true → listLexLeb ys zs = true →
    listLexLeb xs zs = true := by
  intro xs
  induction xs with
  | nil => intro ys zs _ _; rfl
  | cons c cs ih =>
    intro ys zs h1 h2
    cases ys with
    | nil => simp [listLexLeb] at h1
    | cons d ds =>
      cases zs with
      | nil => simp [listLexLeb] at h2
      | cons e es =>
        simp only [listLexLeb] at h1 h2 ⊢
        by_cases hcd : charEqb c d = true <;>
          by_cases hde : charEqb d e = true
        · have hce : charEqb c e = true := by
            simp [charEqb] at hcd hde ⊢; omega
          rw [if_pos hcd] at h1
          rw [if_pos hde] at h2
          rw [if_pos hce]
          exact ih ds es h1 h2
        · rw [if_pos hcd] at h1
          rw [if_neg hde] at h2
          have hce : ¬ charEqb c e = true := by
            simp [charEqb, charLeb] at hcd hde h2 ⊢; omega
          rw [if_neg hce]
          simp [charEqb, charLeb] at hcd hde h2 ⊢
          omega
        · rw [if_neg hcd] at h1
          rw [if_pos hde] at h2
          have hce : ¬ charEqb c e = true := by
            simp [charEqb, charLeb] at hcd hde h1 ⊢; omega
          rw [if_neg hce]
          simp [charEqb, charLeb] at hcd hde h1 ⊢
          omega
        · rw [if_neg hcd] at h1
          rw [if_neg hde] at h2
          have hce : ¬ charEqb c e = true := by
            simp [charEqb, charLeb] at hcd hde h1 h2 ⊢; omega
          rw [if_neg hce]
          simp [charEqb, charLeb] at hcd hde h1 h2 ⊢
          omega

theorem strLeb_total (a b : String) : strLeb a b = true ∨ strLeb b a = true :=
  listLexLeb_total a.data b.data

theorem strLeb_trans (a b c : String) (h1 : strLeb a b = true)
    (h2 : strLeb b c = true) : strLeb a c = true :=
  listLexLeb_trans a.data b.data c.data h1 h2

instance : IsTotal Blob blobLe :=
  ⟨fun a b => strLeb_total a.name b.name⟩

instance : IsTrans Blob blobLe :=
  ⟨fun a b c => strLeb_trans a.name b.name c.name⟩

theorem find?_upload_self (s : Store) (n c : String) (t : Nat) :
    (Store.upload s n c t).find? n = some ⟨n, c, t⟩ := by
  induction s with
  | nil => simp [Store.upload, Store.find?]
  | cons b bs ih =>
    by_cases h : b.name = n
    · simp [Store.upload, h, Store.find?]
    · simp [Store.upload, h, Store.find?, ih]

theorem find?_upload_other (s : Store) (n c : String) (t : Nat) (m : String)
    (h : ¬ m = n) : (Store.upload s n c t).find? m = s.find? m := by
  induction s with
  | nil =>
    simp [Store.upload, Store.find?]
    intro hn
    exact absurd hn.symm h
  | cons b bs ih =>
    by_cases hb : b.name = n
    · have hbm : ¬ b.name = m := by rw [hb]; intro hx; exact h hx.symm
      have hnm : ¬ n = m := fun hx => h hx.symm
      simp [Store.upload, hb, Store.find?, hnm, hbm]
    · by_cases hbm : b.name = m
      · simp [Store.upload, hb, Store.find?, hbm, h]
      · simp [Store.upload, hb, Store.find?, hbm, ih]

theorem self_mem_upload (s : Store) (n c : String) (t : Nat) :
    Blob.mk n c t ∈ Store.upload s n c t := by
  induction s with
  | nil => simp [Store.upload]
  | cons b bs ih =>
    by_cases h : b.name = n
    · simp [Store.upload, h]
    · simp [Store.upload, h]
      right
      exact ih

theorem length_upload_notMem (s : Store) (n c : String) (t : Nat)
    (h : s.find? n = none) :
    (Store.upload s n c t).length = s.length + 1 := by
  induction s with
  | nil => simp [Store.upload]
  | cons b bs ih =>
    by_cases hb : b.name = n
    · simp [Store.find?, hb] at h
    · simp [Store.find?, hb] at h
      simp [Store.upload, hb, ih h]

theorem serJson_obj_endsWith_brace (gap ind : String)
    (fs : List (String × Json)) :
    strEndsWithb (serJson gap ind (Json.obj fs)) "\x7d" = true := by
  cases fs with
  | nil => rfl
  | cons f fs =>
    show strEndsWithb (_ ++ "\x7d") "\x7d" = true
    simp [strEndsWithb, listPrefixb, charEqb]

instance : IsTotal String nameLe :=
  ⟨fun a b => strLeb_total a b⟩

instance : IsTrans String nameLe :=
  ⟨fun a b c => strLeb_trans a b c⟩

theorem orderedInsert_name_comm (b : Blob) (l : List Blob) :
    (List.orderedInsert blobLe b l).map Blob.name
      = List.orderedInsert nameLe b.name (l.map Blob.name) := by
  induction l with
  | nil => rfl
  | cons x xs ih =>
    by_cases h : blobLe b x
    · have h2 : nameLe b.name x.name := h
      simp [List.orderedInsert, h, h2]
    · have h2 : ¬ nameLe b.name x.name := h
      simp [List.orderedInsert, h, h2, ih]

theorem sortByName_names (s : Store) :
    (sortByName s).map Blob.name
      = List.insertionSort nameLe (s.map Blob.name) := by
  induction s with
  | nil => rfl
  | cons b bs ih =>
    show (List.orderedInsert blobLe b (List.insertionSort blobLe bs)).map Blob.name = _
    rw [orderedInsert_name_comm]
    rw [show (List.insertionSort blobLe bs).map Blob.name
          = List.insertionSort nameLe (bs.map Blob.name) from ih]
    rfl

theorem flightsList_listedNames (cfg : Config) (store : Store) (req : Request)
    (h : envTruthy cfg.accountName = true) :
    ((flightsList cfg store req).1).listedNames
      = (sortByName store).map Blob.name := by
  simp [flightsList, h, Response.listedNames, List.map_map]

/-
Claim theorems.
-/

/-- C10: a request to the append endpoint whose method is not POST is
answered 405 Method-not-allowed with the store unchanged; the outcome is
identical for every body and every configuration, so the handler answers
before reading the body, validating, or touching the store. -/
theorem flightsCreate_rejects_non_post (cfg : Config) (now : Nat)
    (store : Store) (req : Request) (h : ¬ req.method = "POST") :
    flightsCreate cfg now store req = (⟨405, .err "Method not allowed"⟩, store)
    ∧ ∀ (b : Json) (cfg2 : Config),
        flightsCreate cfg2 now store { req with body := b }
          = flightsCreate cfg now store req := by
  constructor
  · simp [flightsCreate, h]
  · intro b cfg2
    simp [flightsCreate, h]

/-- Witness for C10 at the concrete GET request. -/
theorem flightsCreate_rejects_non_post_witness :
    flightsCreate cfgOk 0 [] (queryReq none none none none)
      = (⟨405, .err "Method not allowed"⟩, []) :=
  (flightsCreate_rejects_non_post cfgOk 0 [] (queryReq none none none none)
    (by decide)).1

/-- C2: with the endpoint reachable (POST method, storage configured), a
record object missing the required identifier field or the required status
field is rejected with the 400 validation error and the store is not
written. -/
theorem flightsCreate_missing_field_rejected (cfg : Config) (now : Nat)
    (store : Store) (req : Request) (fs : List (String × Json))
    (hm : req.method = "POST")
    (hn : envTruthy cfg.accountName = true)
    (hk : envTruthy cfg.accountKey = true)
    (hb : req.body = Json.obj fs)
    (hmiss : req.body.getField "flightId" = none
             ∨ req.body.getField "status" = none) :
    flightsCreate cfg now store req
      = (⟨400, .err "Missing required fields"⟩, store) := by
  rcases hmiss with h | h
  · rw [hb] at h
    simp only [Json.getField] at h
    cases hst : lookupField fs "status" <;>
      simp [flightsCreate, hm, hn, hk, hb, Json.getField, h, hst]
  · rw [hb] at h
    simp only [Json.getField] at h
    cases hfi : lookupField fs "flightId" <;>
      simp [flightsCreate, hm, hn, hk, hb, Json.getField, h, hfi]

/-- Witness for C2: a record with an identifier but no status. -/
theorem flightsCreate_missing_field_rejected_witness :
    flightsCreate cfgOk 0 [] (postReq (Json.obj [("flightId", Json.str "e1")]))
      = (⟨400, .err "Missing required fields"⟩, []) :=
  flightsCreate_missing_field_rejected cfgOk 0 []
    (postReq (Json.obj [("flightId", Json.str "e1")]))
    [("flightId", Json.str "e1")] rfl rfl rfl rfl (Or.inr rfl)

/-- C9: the read path is idempotent: a query leaves the store unchanged, and
an identical second query against the resulting store returns the identical
response, whatever the configuration, store and request. -/
theorem flightsList_idempotent (cfg : Config) (store : Store) (req : Request) :
    (flightsList cfg store req).2 = store
    ∧ (flightsList cfg (flightsList cfg store req).2 req).1
        = (flightsList cfg store req).1 := by
  have h2 : (flightsList cfg store req).2 = store := by
    unfold flightsList
    split <;> rfl
  exact ⟨h2, by rw [h2]⟩

theorem listPrefixb_self_append (p t : List Char) :
    listPrefixb p (p ++ t) = true := by
  induction p with
  | nil => rfl
  | cons c cs ih => simp [listPrefixb, charEqb, ih]

theorem getField_some_obj (j : Json) (k : String) (v : Json)
    (h : j.getField k = some v) : ∃ fs, j = Json.obj fs := by
  cases j with
  | obj fs => exact ⟨fs, rfl⟩
  | null => simp [Json.getField] at h
  | bool b => simp [Json.getField] at h
  | num n => simp [Json.getField] at h
  | str s => simp [Json.getField] at h
  | arr xs => simp [Json.getField] at h

theorem flightsCreate_valid_run (cfg : Config) (now : Nat) (store : Store)
    (req : Request) (fid st : Json)
    (hm : req.method = "POST")
    (hn : envTruthy cfg.accountName = true)
    (hk : envTruthy cfg.accountKey = true)
    (hfi : req.body.getField "flightId" = some fid)
    (hft : jsTruthyV fid = true)
    (hst : req.body.getField "status" = some st)
    (hstt : jsTruthyV st = true) :
    flightsCreate cfg now store req
      = (⟨200, .created true (fid.toJSString ++ ".json")⟩,
         store.upload (fid.toJSString ++ ".json") (serJson "  " "" req.body) now) := by
  obtain ⟨fs, hb⟩ := getField_some_obj req.body "flightId" fid hfi
  rw [hb] at hfi hst
  simp only [Json.getField] at hfi hst
  simp [flightsCreate, hm, hn, hk, hb, Json.getField, hfi, hst, hft, hstt]

/-- C3 counterexample: appending record e1 to a store that already holds an
object named e1.json with content "OLD" does not leave the existing content
in place with the new line after it: the resulting store holds only the
fresh serialization of e1, whose text does not even begin with "OLD" (it
begins with a brace), so the new content extends the old in no way. -/
theorem flightsCreate_append_after_existing_cex :
    (flightsCreate cfgOk 5 [⟨"e1.json", "OLD", 0⟩] (postReq bodyE1)).2
        = [⟨"e1.json", serJson "  " "" bodyE1, 5⟩]
    ∧ strStartsWithb (serJson "  " "" bodyE1) "OLD" = false := by
  exact ⟨rfl, rfl⟩

/-- C3 amended: for a valid record, the writer performs a whole-object write
of the record's serialization under the name flightId.json: afterwards that
object's content is exactly the serialization (any previous content of an
existing object of that name is discarded, and a missing object is created
holding exactly the serialization), and every object of a different name is
untouched. -/
theorem flightsCreate_whole_object_write (cfg : Config) (now : Nat)
    (store : Store) (req : Request) (fid st : Json)
    (hm : req.method = "POST")
    (hn : envTruthy cfg.accountName = true)
    (hk : envTruthy cfg.accountKey = true)
    (hfi : req.body.getField "flightId" = some fid)
    (hft : jsTruthyV fid = true)
    (hst : req.body.getField "status" = some st)
    (hstt : jsTruthyV st = true) :
    ((flightsCreate cfg now store req).2).find? (fid.toJSString ++ ".json")
      = some ⟨fid.toJSString ++ ".json", serJson "  " "" req.body, now⟩
    ∧ ∀ m, ¬ m = fid.toJSString ++ ".json" →
        ((flightsCreate cfg now store req).2).find? m = store.find? m := by
  rw [flightsCreate_valid_run cfg now store req fid st hm hn hk hfi hft hst hstt]
  exact ⟨find?_upload_self store _ _ now,
         fun m hm2 => find?_upload_other store _ _ now m hm2⟩

/-- Witness for the amended C3 at record e1 over a store already holding
e1.json. -/
theorem flightsCreate_whole_object_write_witness :
    ((flightsCreate cfgOk 5 [⟨"e1.json", "OLD", 0⟩] (postReq bodyE1)).2).find?
        ((Json.str "e1").toJSString ++ ".json")
      = some ⟨(Json.str "e1").toJSString ++ ".json",
              serJson "  " "" (postReq bodyE1).body, 5⟩
    ∧ ∀ m, ¬ m = (Json.str "e1").toJSString ++ ".json" →
        ((flightsCreate cfgOk 5 [⟨"e1.json", "OLD", 0⟩] (postReq bodyE1)).2).find? m
          = Store.find? [⟨"e1.json", "OLD", 0⟩] m :=
  flightsCreate_whole_object_write cfgOk 5 [⟨"e1.json", "OLD", 0⟩]
    (postReq bodyE1) (Json.str "e1") (Json.str "successful")
    rfl rfl rfl rfl rfl rfl rfl

/-- C4 counterexample: the writer persists record e1, whose createdAt day is
2024-11-12, under the key e1.json: the key does not lie under the layout
prefix events/2024/11/12/ derived from createdAt, so the layout invariant of
the claim fails at this input. -/
theorem flightsCreate_layout_cex :
    ((flightsCreate cfgOk 7 [] (postReq bodyE1)).2).map Blob.name = ["e1.json"]
    ∧ bodyE1.getField "createdAt" = some (Json.str "2024-11-12T10:00:00Z")
    ∧ strStartsWithb "e1.json" "events/2024/11/12/" = false := by
  exact ⟨rfl, rfl, rfl⟩

/-- C4 amended: every object the writer persists has key flightId.json -
independent of createdAt, with no date path - and content equal to the
two-space-indented pretty JSON serialization of the record, which ends with
a closing brace rather than a newline (so it is not newline-terminated
JSONL). -/
theorem flightsCreate_key_and_content (cfg : Config) (now : Nat)
    (store : Store) (req : Request) (fid st : Json)
    (hm : req.method = "POST")
    (hn : envTruthy cfg.accountName = true)
    (hk : envTruthy cfg.accountKey = true)
    (hfi : req.body.getField "flightId" = some fid)
    (hft : jsTruthyV fid = true)
    (hst : req.body.getField "status" = some st)
    (hstt : jsTruthyV st = true) :
    (flightsCreate cfg now store req).2
      = store.upload (fid.toJSString ++ ".json") (serJson "  " "" req.body) now
    ∧ strEndsWithb (serJson "  " "" req.body) "\x7d" = true := by
  obtain ⟨fs, hb⟩ := getField_some_obj req.body "flightId" fid hfi
  constructor
  · rw [flightsCreate_valid_run cfg now store req fid st hm hn hk hfi hft hst hstt]
  · rw [hb]
    exact serJson_obj_endsWith_brace "  " "" fs

/-- Witness for the amended C4 at record e1 over the empty store. -/
theorem flightsCreate_key_and_content_witness :
    (flightsCreate cfgOk 7 [] (postReq bodyE1)).2
      = Store.upload [] ((Json.str "e1").toJSString ++ ".json")
          (serJson "  " "" (postReq bodyE1).body) 7
    ∧ strEndsWithb (serJson "  " "" (postReq bodyE1).body) "\x7d" = true :=
  flightsCreate_key_and_content cfgOk 7 [] (postReq bodyE1)
    (Json.str "e1") (Json.str "successful") rfl rfl rfl rfl rfl rfl rfl

/-- C1 counterexample: the store holds the records of two owners (e1 by
alice, e2 by bob, both written by the create handler); a query carrying
scope own with caller alice still returns an entry for bob's record e2.json,
whose owner field is "bob", different from the caller "alice". -/
theorem flightsList_scope_own_cex :
    ((flightsList cfgOk
        ((flightsCreate cfgOk 2
            ((flightsCreate cfgOk 1 [] (postReq bodyE1)).2)
            (postReq bodyE2)).2)
        (queryReq (some "own") (some "alice") none none)).1).listedNames
      = ["e1.json", "e2.json"]
    ∧ (bodyE2.getField "pilot").bind (fun p => p.getField "githubLogin")
        = some (Json.str "bob")
    ∧ ¬ ("bob" : String) = "alice" := by
  refine ⟨rfl, rfl, by decide⟩

/-- C1 amended: the list handler applies no row-level filter: its response
is independent of the request - in particular of any scope and caller
parameters - and it returns one entry for every stored object, whatever the
owners of the stored records. -/
theorem flightsList_no_row_filter (cfg : Config) (store : Store)
    (req req2 : Request) (h : envTruthy cfg.accountName = true) :
    (flightsList cfg store req).1 = (flightsList cfg store req2).1
    ∧ ((flightsList cfg store req).1).listedNames
        = (sortByName store).map Blob.name :=
  ⟨rfl, flightsList_listedNames cfg store req h⟩

/-- Witness for the amended C1: an own-scoped and an all-scoped request over
a two-owner store receive the same answer, listing every object. -/
theorem flightsList_no_row_filter_witness :
    (flightsList cfgOk [⟨"e1.json", "a", 0⟩, ⟨"e2.json", "b", 1⟩]
        (queryReq (some "own") (some "alice") none none)).1
      = (flightsList cfgOk [⟨"e1.json", "a", 0⟩, ⟨"e2.json", "b", 1⟩]
          (queryReq (some "all") none none none)).1
    ∧ ((flightsList cfgOk [⟨"e1.json", "a", 0⟩, ⟨"e2.json", "b", 1⟩]
          (queryReq (some "own") (some "alice") none none)).1).listedNames
        = (sortByName [⟨"e1.json", "a", 0⟩, ⟨"e2.json", "b", 1⟩]).map Blob.name :=
  flightsList_no_row_filter cfgOk [⟨"e1.json", "a", 0⟩, ⟨"e2.json", "b", 1⟩]
    (queryReq (some "own") (some "alice") none none)
    (queryReq (some "all") none none none) rfl

/-- C5 counterexample: records a (createdAt 2024) and b (createdAt 2025) are
written; the query returns them in blob-name order a.json, b.json, which for
the corresponding (createdAt, id) pairs violates the spec's
createdAt-descending ordering (b, being newer, would have to come first). -/
theorem flightsList_order_cex :
    ((flightsList cfgOk
        ((flightsCreate cfgOk 2
            ((flightsCreate cfgOk 1 [] (postReq bodyA)).2)
            (postReq bodyB)).2)
        (queryReq (some "all") none none none)).1).listedNames
      = ["a.json", "b.json"]
    ∧ bodyA.getField "createdAt" = some (Json.str "2024-01-01T00:00:00Z")
    ∧ bodyB.getField "createdAt" = some (Json.str "2025-01-01T00:00:00Z")
    ∧ bodyA.getField "flightId" = some (Json.str "a")
    ∧ bodyB.getField "flightId" = some (Json.str "b")
    ∧ specOrderedByCreatedAtDesc
        [("2024-01-01T00:00:00Z", "a"), ("2025-01-01T00:00:00Z", "b")]
      = false := by
  refine ⟨rfl, rfl, rfl, rfl, rfl, rfl⟩

/-- C5 amended: the returned list is in ascending lexicographic blob-name
order (the store's enumeration order), not createdAt order, and no result
cap is applied: every stored object yields exactly one entry. -/
theorem flightsList_name_order_no_cap (cfg : Config) (store : Store)
    (req : Request) (h : envTruthy cfg.accountName = true) :
    List.Sorted nameLe (((flightsList cfg store req).1).listedNames)
    ∧ (((flightsList cfg store req).1).listedNames).length = store.length := by
  rw [flightsList_listedNames cfg store req h, sortByName_names]
  constructor
  · exact List.sorted_insertionSort nameLe (store.map Blob.name)
  · simp

/-- Witness for the amended C5 over a store whose insertion order is not its
name order. -/
theorem flightsList_name_order_no_cap_witness :
    List.Sorted nameLe (((flightsList cfgOk
        [⟨"b.json", "x", 0⟩, ⟨"a.json", "y", 1⟩]
        (queryReq (some "all") none none none)).1).listedNames)
    ∧ (((flightsList cfgOk [⟨"b.json", "x", 0⟩, ⟨"a.json", "y", 1⟩]
          (queryReq (some "all") none none none)).1).listedNames).length
        = ([⟨"b.json", "x", 0⟩, ⟨"a.json", "y", 1⟩] : Store).length :=
  flightsList_name_order_no_cap cfgOk [⟨"b.json", "x", 0⟩, ⟨"a.json", "y", 1⟩]
    (queryReq (some "all") none none none) rfl

/-- C6 counterexample: a single partition-style blob holds two well-formed
JSON lines and one malformed line (N = 2); the claim demands exactly N
parsed records with a skipped count of 1, but the query returns a single
unparsed metadata entry for the blob - its result has length 1, not 2 - and
the response carries no skipped count at all. -/
theorem flightsList_malformed_line_cex :
    ((flightsList cfgOk
        [⟨"part.jsonl", "\x7b\"a\": 1\x7d\nnot-json\n\x7b\"b\": 2\x7d\n", 0⟩]
        (queryReq (some "all") none none none)).1).listedNames.length = 1
    ∧ ¬ ((flightsList cfgOk
          [⟨"part.jsonl", "\x7b\"a\": 1\x7d\nnot-json\n\x7b\"b\": 2\x7d\n", 0⟩]
          (queryReq (some "all") none none none)).1).listedNames.length = 2 := by
  refine ⟨rfl, by decide⟩

/-- C6 amended: the reader never downloads or parses blob content: the
returned names are a function of the stored names alone (the sorted name
list), malformed content included, with exactly one entry per stored blob;
the response carries no skipped count. -/
theorem flightsList_never_parses (cfg : Config) (store : Store)
    (req : Request) (h : envTruthy cfg.accountName = true) :
    ((flightsList cfg store req).1).listedNames
      = List.insertionSort nameLe (store.map Blob.name)
    ∧ ((flightsList cfg store req).1).listedNames.length = store.length := by
  rw [flightsList_listedNames cfg store req h, sortByName_names]
  constructor
  · rfl
  · simp

/-- Witness for the amended C6 at the blob holding a malformed line. -/
theorem flightsList_never_parses_witness :
    ((flightsList cfgOk
        [⟨"part.jsonl", "\x7b\"a\": 1\x7d\nnot-json\n\x7b\"b\": 2\x7d\n", 0⟩]
        (queryReq (some "all") none none none)).1).listedNames
      = List.insertionSort nameLe
          (([⟨"part.jsonl", "\x7b\"a\": 1\x7d\nnot-json\n\x7b\"b\": 2\x7d\n", 0⟩] :
              Store).map Blob.name)
    ∧ ((flightsList cfgOk
          [⟨"part.jsonl", "\x7b\"a\": 1\x7d\nnot-json\n\x7b\"b\": 2\x7d\n", 0⟩]
          (queryReq (some "all") none none none)).1).listedNames.length
        = ([⟨"part.jsonl", "\x7b\"a\": 1\x7d\nnot-json\n\x7b\"b\": 2\x7d\n", 0⟩] :
            Store).length :=
  flightsList_never_parses cfgOk
    [⟨"part.jsonl", "\x7b\"a\": 1\x7d\nnot-json\n\x7b\"b\": 2\x7d\n", 0⟩]
    (queryReq (some "all") none none none) rfl

/-- C7 counterexample: record e1 (createdAt day 2024-11-12) is appended and
an unfiltered query follows; the claim places the matching record within the
same partition day, but the single returned entry is e1.json and no returned
name lies under the partition-day prefix events/2024/11/12/. -/
theorem append_then_query_partition_cex :
    ((flightsList cfgOk ((flightsCreate cfgOk 1 [] (postReq bodyE1)).2)
        (queryReq (some "all") none none none)).1).listedNames = ["e1.json"]
    ∧ (((flightsList cfgOk ((flightsCreate cfgOk 1 [] (postReq bodyE1)).2)
          (queryReq (some "all") none none none)).1).listedNames.any
        (fun n => strStartsWithb n "events/2024/11/12/")) = false := by
  refine ⟨rfl, rfl⟩

/-- C7 amended: after a successful append of a valid record, an unfiltered
query returns an entry for it: the name flightId.json is among the listed
names (there is no partition-day structure to locate it in). -/
theorem append_then_query_contains (cfg : Config) (now : Nat) (store : Store)
    (req req2 : Request) (fid st : Json)
    (hm : req.method = "POST")
    (hn : envTruthy cfg.accountName = true)
    (hk : envTruthy cfg.accountKey = true)
    (hfi : req.body.getField "flightId" = some fid)
    (hft : jsTruthyV fid = true)
    (hst : req.body.getField "status" = some st)
    (hstt : jsTruthyV st = true) :
    (fid.toJSString ++ ".json") ∈
      ((flightsList cfg ((flightsCreate cfg now store req).2) req2).1).listedNames := by
  rw [flightsCreate_valid_run cfg now store req fid st hm hn hk hfi hft hst hstt]
  rw [flightsList_listedNames cfg _ req2 hn]
  have hmem : Blob.mk (fid.toJSString ++ ".json") (serJson "  " "" req.body) now
      ∈ Store.upload store (fid.toJSString ++ ".json") (serJson "  " "" req.body) now :=
    self_mem_upload store _ _ now
  have hsorted : Blob.mk (fid.toJSString ++ ".json") (serJson "  " "" req.body) now
      ∈ sortByName (Store.upload store (fid.toJSString ++ ".json")
          (serJson "  " "" req.body) now) := by
    unfold sortByName
    exact (List.mem_insertionSort blobLe).mpr hmem
  exact List.mem_map_of_mem Blob.name hsorted

/-- Witness for the amended C7: e1 appended to the empty store appears in
the following query. -/
theorem append_then_query_contains_witness :
    ((Json.str "e1").toJSString ++ ".json") ∈
      ((flightsList cfgOk ((flightsCreate cfgOk 1 [] (postReq bodyE1)).2)
          (queryReq (some "all") none none none)).1).listedNames :=
  append_then_query_contains cfgOk 1 [] (postReq bodyE1)
    (queryReq (some "all") none none none) (Json.str "e1")
    (Json.str "successful") rfl rfl rfl rfl rfl rfl rfl

/-- C8 counterexample: the store holds only record e1, created on
2024-11-12; a query whose date range 2030-01-01 to 2030-12-31 excludes that
day still returns e1.json - the result is not the empty list the claim
requires. -/
theorem flightsList_date_range_cex :
    ((flightsList cfgOk ((flightsCreate cfgOk 1 [] (postReq bodyE1)).2)
        (queryReq (some "all") none (some "2030-01-01") (some "2030-12-31"))).1).listedNames
      = ["e1.json"]
    ∧ ¬ ((flightsList cfgOk ((flightsCreate cfgOk 1 [] (postReq bodyE1)).2)
          (queryReq (some "all") none (some "2030-01-01") (some "2030-12-31"))).1).listedNames
        = [] := by
  refine ⟨rfl, by decide⟩

/-- C8 amended: a store with no objects yields status 200 with an empty
list and count 0 - missing data is not an error - and the reader ignores
the date-range parameters entirely: the response is identical whatever range
is supplied, so a range excluding all data does not yield an empty result.
No skipped counter exists in the response. -/
theorem flightsList_empty_and_range_blind (cfg : Config) (store : Store)
    (req : Request) (dFrom dTo : Option String)
    (h : envTruthy cfg.accountName = true) :
    (flightsList cfg [] req).1 = ⟨200, .listing [] 0⟩
    ∧ (flightsList cfg store
          { req with dateFrom := dFrom, dateTo := dTo }).1
        = (flightsList cfg store req).1 :=
  ⟨by simp [flightsList, h, sortByName, List.insertionSort], rfl⟩

/-- Witness for the amended C8 at the concrete excluded range. -/
theorem flightsList_empty_and_range_blind_witness :
    (flightsList cfgOk [] (queryReq (some "all") none none none)).1
      = ⟨200, .listing [] 0⟩
    ∧ (flightsList cfgOk [⟨"e1.json", "c", 0⟩]
          { queryReq (some "all") none none none with
              dateFrom := some "2030-01-01", dateTo := some "2030-12-31" }).1
        = (flightsList cfgOk [⟨"e1.json", "c", 0⟩]
            (queryReq (some "all") none none none)).1 :=
  flightsList_empty_and_range_blind cfgOk [⟨"e1.json", "c", 0⟩]
    (queryReq (some "all") none none none)
    (some "2030-01-01") (some "2030-12-31") rfl
